import Mathlib

/-!
Verification development for the root-view construction engine of
nix-user-chroot (`src/main.rs`, `src/mkdtemp.rs`).

The Rust source is shallowly embedded: paths become a record of an
absolute-flag plus a list of components, the host filesystem becomes a
function from paths to node kinds, and the stateful mirroring code becomes
explicit state passing over a scratch-destination map together with a trace
of the mount/create/symlink actions performed.  Recursion that is unbounded
in the source (symlink chasing, directory recursion) takes an explicit fuel
parameter; fuel exhaustion is modelled as an error distinct from every
behaviour the source exhibits on finite inputs.
-/

namespace NixUserChroot

/-! ## Paths

A `FsPath` models a Rust `PathBuf` as an absolute-flag plus the list of
normal components.  `join`, `stripPref?`, `parentPath` and friends follow
the semantics of the `std::path` operations used in `main.rs`:
`join` with an absolute argument replaces the path, `strip_prefix` matches
whole components, `parent`/`pop` drop the last component and fail at the
root, `file_name` is the last component. -/

structure FsPath where
  absolute : Bool
  comps : List String
deriving DecidableEq, Repr

/-- `Path::join`: an absolute argument replaces the receiver. -/
def FsPath.join (p q : FsPath) : FsPath :=
  if q.absolute then q else ⟨p.absolute, p.comps ++ q.comps⟩

/-- `Path::strip_prefix` restricted to what the source uses: component-wise
prefix match; the result is relative. -/
def stripPref? (base p : FsPath) : Option FsPath :=
  if base.absolute == p.absolute && base.comps.isPrefixOf p.comps then
    some ⟨false, p.comps.drop base.comps.length⟩
  else none

/-- `Path::starts_with`, component-wise. -/
def FsPath.startsWithPath (p base : FsPath) : Bool :=
  base.absolute == p.absolute && base.comps.isPrefixOf p.comps

/-- `Path::parent` / `PathBuf::pop`: drop the last component; `none` at the
root (`/`) or the empty path, where `pop` returns `false`. -/
def parentPath : FsPath → Option FsPath
  | ⟨_, []⟩ => none
  | ⟨a, c :: cs⟩ => some ⟨a, (c :: cs).dropLast⟩

/-- `Path::file_name`: the last component, if any. -/
def FsPath.lastName (p : FsPath) : Option String :=
  p.comps.getLast?

/-- The literal path `/nix`. -/
def nixPref : FsPath := ⟨true, ["nix"]⟩

/-- The literal path `/dev/null`. -/
def devNullPath : FsPath := ⟨true, ["dev", "null"]⟩

/-- The literal path `/`. -/
def rootPath : FsPath := ⟨true, []⟩

/-- `dir.join(name)` for a single directory-entry name. -/
def childPath (dir : FsPath) (n : String) : FsPath :=
  ⟨dir.absolute, dir.comps ++ [n]⟩

/-! ## Host filesystem

The host filesystem is a function from paths to node kinds, plus a listing
function for `fs::read_dir`.  `symlink_metadata` (the lookup the source
uses everywhere) does not follow links, so a symlink is its own node. -/

inductive FsNode where
  | absent
  | file
  | dir
  | symlink (target : FsPath)
  | other
deriving DecidableEq, Repr

def Fs : Type := FsPath → FsNode

structure Host where
  node : Fs
  children : FsPath → List String

/-! ## The path resolver (`RunChroot::resolve_nix_path`, main.rs 159-218) -/

inductive RErr where
  | notFound
  | fuelOut
deriving DecidableEq, Repr

/-- The rebase done at main.rs 165-169: a relative symlink target is joined
against `p.parent().unwrap()`. -/
def rebase (p tgt : FsPath) : FsPath :=
  if tgt.absolute then tgt else ⟨p.absolute, p.comps.dropLast ++ tgt.comps⟩

/-- The ancestor test of the peel loop (main.rs 197-202): the ancestor is a
symlink whose raw (unrebased) target starts with `/nix`. -/
def isNixLink (fs : Fs) (q : FsPath) : Bool :=
  match fs q with
  | .symlink t => (stripPref? nixPref t).isSome
  | _ => false

/-- The peel loop of main.rs 189-214.  The argument `m + 1` means the
ancestor `⟨ab, pcomps.take m⟩` is examined next (the loop pops before
testing, so the first ancestor examined is the parent); at `0` the whole
path has been consumed and the loop falls through to `NotFound`.  On a hit
the stripped suffix `pcomps.drop m` is reattached to the resolved ancestor
and resolution is retried (both recursive calls go through `resolve`). -/
def peelGo (check : FsPath → Bool) (resolve : FsPath → Except RErr FsPath)
    (ab : Bool) (pcomps : List String) : Nat → Except RErr FsPath
  | 0 => .error .notFound
  | m + 1 =>
    if check ⟨ab, pcomps.take m⟩ then
      (resolve ⟨ab, pcomps.take m⟩).bind fun actualParent =>
        resolve (actualParent.join ⟨false, pcomps.drop m⟩)
    else
      peelGo check resolve ab pcomps m

/-- main.rs 159-218.  Recursively resolves a symlink, replacing `/nix`
prefixes with `nixdir`.  `stop` is `stop_at_first_non_nix_path`.  The
source recursion is unbounded; `fuel` bounds it here, with `.fuelOut`
marking exhaustion (a behaviour the source never exhibits on acyclic
filesystems). -/
def resolve_nix_path (fs : Fs) (nixdir : FsPath) :
    Nat → FsPath → Bool → Except RErr FsPath
  | 0, _, _ => .error .fuelOut
  | fuel + 1, p, stop =>
    match fs p with
    | .symlink tgt =>
      let target := rebase p tgt
      match stripPref? nixPref target with
      | some rest => resolve_nix_path fs nixdir fuel (nixdir.join rest) stop
      | none =>
        if stop then .ok target
        else resolve_nix_path fs nixdir fuel target stop
    | .absent =>
      peelGo (isNixLink fs) (fun q => resolve_nix_path fs nixdir fuel q stop)
        p.absolute p.comps p.comps.length
    | _ => .ok p

/-! ### Helper lemmas about the peel loop -/

theorem peelGo_miss (check : FsPath → Bool) (resolve : FsPath → Except RErr FsPath)
    (ab : Bool) (pcomps : List String) (m : Nat)
    (h : ∀ j, j < m → check ⟨ab, pcomps.take j⟩ = false) :
    peelGo check resolve ab pcomps m = .error .notFound := by
  induction m with
  | zero => rfl
  | succ m ih =>
    simp only [peelGo, h m (Nat.lt_succ_self m), Bool.false_eq_true, if_false]
    exact ih (fun j hj => h j (Nat.lt_trans hj (Nat.lt_succ_self m)))

theorem peelGo_hit (check : FsPath → Bool) (resolve : FsPath → Except RErr FsPath)
    (ab : Bool) (pcomps : List String) (k m : Nat)
    (hk : check ⟨ab, pcomps.take k⟩ = true)
    (hmiss : ∀ j, k < j → j < m → check ⟨ab, pcomps.take j⟩ = false)
    (hkm : k < m) :
    peelGo check resolve ab pcomps m =
      (resolve ⟨ab, pcomps.take k⟩).bind
        (fun actualParent => resolve (actualParent.join ⟨false, pcomps.drop k⟩)) := by
  induction m with
  | zero => exact absurd hkm (Nat.not_lt_zero k)
  | succ m ih =>
    rcases Nat.lt_succ_iff_lt_or_eq.mp hkm with hlt | heq
    · simp only [peelGo, hmiss m hlt (Nat.lt_succ_self m), Bool.false_eq_true, if_false]
      exact ih (fun j hj hjm => hmiss j hj (Nat.lt_trans hjm (Nat.lt_succ_self m))) hlt
    · subst heq
      simp only [peelGo, hk, if_true]

/-! ### Claim theorems about the resolver -/

/-- Claim C4: for a symbolic link `p`, the resolver reads the target,
rebases a relative target against `p`'s parent, and then: if the rebased
target begins with `/nix` it strips that prefix, prepends the store
directory and recurses; if stop-at-first-non-nix mode is set and the target
did not begin with `/nix`, it returns that target without further
resolution. -/
theorem claim_C4 (fs : Fs) (nixdir : FsPath) (fuel : Nat) (p tgt : FsPath)
    (stop : Bool) (hsym : fs p = .symlink tgt) :
    (∀ rest, stripPref? nixPref (rebase p tgt) = some rest →
      resolve_nix_path fs nixdir (fuel + 1) p stop =
        resolve_nix_path fs nixdir fuel (nixdir.join rest) stop) ∧
    (stripPref? nixPref (rebase p tgt) = none →
      resolve_nix_path fs nixdir (fuel + 1) p true = .ok (rebase p tgt)) := by
  constructor
  · intro rest hrest
    simp only [resolve_nix_path, hsym, hrest]
  · intro hnone
    simp only [resolve_nix_path, hsym, hnone, if_true]

/-- Concrete instance for C4: `/bin/sh` is a symlink to `/nix/store/sh`;
one resolver step rewrites it to a path under the store directory, and in
stop mode a non-nix target is returned unchanged. -/
def fsC4 : Fs := fun q =>
  if q = ⟨true, ["bin", "sh"]⟩ then .symlink ⟨true, ["nix", "store", "sh"]⟩
  else if q = ⟨true, ["bin", "vi"]⟩ then .symlink ⟨true, ["usr", "bin", "vim"]⟩
  else .absent

theorem claim_C4_witness :
    fsC4 ⟨true, ["bin", "sh"]⟩ = .symlink ⟨true, ["nix", "store", "sh"]⟩ ∧
    stripPref? nixPref (rebase ⟨true, ["bin", "sh"]⟩ ⟨true, ["nix", "store", "sh"]⟩) =
      some ⟨false, ["store", "sh"]⟩ ∧
    resolve_nix_path fsC4 ⟨true, ["nd"]⟩ 2 ⟨true, ["bin", "sh"]⟩ false =
      resolve_nix_path fsC4 ⟨true, ["nd"]⟩ 1
        (FsPath.join ⟨true, ["nd"]⟩ ⟨false, ["store", "sh"]⟩) false ∧
    resolve_nix_path fsC4 ⟨true, ["nd"]⟩ 2 ⟨true, ["bin", "vi"]⟩ true =
      .ok ⟨true, ["usr", "bin", "vim"]⟩ := by
  refine ⟨by decide, by decide, ?_, ?_⟩
  · exact (claim_C4 fsC4 ⟨true, ["nd"]⟩ 1 ⟨true, ["bin", "sh"]⟩
      ⟨true, ["nix", "store", "sh"]⟩ false (by decide)).1 ⟨false, ["store", "sh"]⟩ (by decide)
  · exact (claim_C4 fsC4 ⟨true, ["nd"]⟩ 1 ⟨true, ["bin", "vi"]⟩
      ⟨true, ["usr", "bin", "vim"]⟩ true (by decide)).2 (by decide)

/-- Claim C5: for a `p` that is not a symlink and does not exist, the
resolver peels components off the tail one at a time; at the deepest
ancestor that is a symlink with a `/nix`-prefixed target it resolves that
ancestor, reattaches the peeled suffix, and retries; if the whole path is
consumed without such a symlink, it returns NotFound. -/
theorem claim_C5 (fs : Fs) (nixdir : FsPath) (fuel : Nat) (p : FsPath)
    (stop : Bool) (habs : fs p = .absent) :
    (∀ k, k < p.comps.length →
      isNixLink fs ⟨p.absolute, p.comps.take k⟩ = true →
      (∀ j, k < j → j < p.comps.length →
        isNixLink fs ⟨p.absolute, p.comps.take j⟩ = false) →
      resolve_nix_path fs nixdir (fuel + 1) p stop =
        (resolve_nix_path fs nixdir fuel ⟨p.absolute, p.comps.take k⟩ stop).bind
          (fun actualParent =>
            resolve_nix_path fs nixdir fuel
              (actualParent.join ⟨false, p.comps.drop k⟩) stop)) ∧
    ((∀ j, j < p.comps.length →
        isNixLink fs ⟨p.absolute, p.comps.take j⟩ = false) →
      resolve_nix_path fs nixdir (fuel + 1) p stop = .error .notFound) := by
  constructor
  · intro k hk hhit hmiss
    simp only [resolve_nix_path, habs]
    exact peelGo_hit (isNixLink fs) _ p.absolute p.comps k p.comps.length hhit hmiss hk
  · intro hmiss
    simp only [resolve_nix_path, habs]
    exact peelGo_miss (isNixLink fs) _ p.absolute p.comps p.comps.length hmiss

/-- Concrete instance for C5: `/profile/bin/prog` does not exist, but the
ancestor `/profile` is a symlink to `/nix/prof`; the resolver retries on
the resolved ancestor with the suffix reattached.  `/lost/file` has no such
ancestor and yields NotFound. -/
def fsC5 : Fs := fun q =>
  if q = ⟨true, ["profile"]⟩ then .symlink ⟨true, ["nix", "prof"]⟩
  else if q = ⟨true, ["nd", "prof"]⟩ then .dir
  else if q = ⟨true, ["nd", "prof", "bin", "prog"]⟩ then .file
  else .absent

theorem claim_C5_witness :
    fsC5 ⟨true, ["profile", "bin", "prog"]⟩ = .absent ∧
    isNixLink fsC5 ⟨true, ["profile"]⟩ = true ∧
    resolve_nix_path fsC5 ⟨true, ["nd"]⟩ 4 ⟨true, ["profile", "bin", "prog"]⟩ false =
      (resolve_nix_path fsC5 ⟨true, ["nd"]⟩ 3 ⟨true, ["profile"]⟩ false).bind
        (fun actualParent =>
          resolve_nix_path fsC5 ⟨true, ["nd"]⟩ 3
            (actualParent.join ⟨false, ["bin", "prog"]⟩) false) ∧
    resolve_nix_path fsC5 ⟨true, ["nd"]⟩ 4 ⟨true, ["lost", "file"]⟩ false =
      .error .notFound := by
  refine ⟨by decide, by decide, ?_, ?_⟩
  · exact (claim_C5 fsC5 ⟨true, ["nd"]⟩ 3 ⟨true, ["profile", "bin", "prog"]⟩ false
      (by decide)).1 1 (by decide) (by decide)
      (by intro j h1 h2
          have h2' : j < 3 := h2
          have hj : j = 2 := by omega
          subst hj; decide)
  · exact (claim_C5 fsC5 ⟨true, ["nd"]⟩ 3 ⟨true, ["lost", "file"]⟩ false
      (by decide)).2
      (by intro j hj
          have hj' : j < 2 := hj
          have hj2 : j = 0 ∨ j = 1 := by omega
          rcases hj2 with h | h <;> subst h <;> decide)

/-! ## The mirror engine (main.rs 26-41, 221-345)

State: a map from scratch-destination paths to the kind of node present
there, a trace of the actions performed (in order), and a `panicked` flag
recording that the source would have aborted via `panic!`/`unwrap`.  Every
engine function is the identity on an already-panicked state, matching the
source where a panic ends the run.

The destination map tracks nodes the engine itself creates; the contents a
bind mount makes visible underneath a mounted directory are not expanded
into the map.  `exists` is existence of a tracked node (the Rust
`Path::exists` follows symlinks; the difference only matters for dangling
symlinks created at a destination, which no claim touches). -/

inductive DKind where
  | dir
  | file
  | link
deriving DecidableEq, Repr

/-- Mount flags; only `MS_BIND`, `MS_REC`, `MS_PRIVATE` occur in the
source. -/
structure MsFlags where
  ms_bind : Bool
  ms_rec : Bool
  ms_private : Bool
deriving DecidableEq, Repr

inductive Action where
  | createDir (p : FsPath)
  | mkDirAll (p : FsPath)
  | createFile (p : FsPath)
  | bindMount (src dst : FsPath) (flags : MsFlags)
  | mkSymlink (target link_path : FsPath)
  | unmountAct (p : FsPath)
  | warn (src dst : FsPath)
deriving DecidableEq, Repr

structure MirrorSt where
  dest : FsPath → Option DKind
  trace : List Action
  panicked : Bool

def addAct (a : Action) (st : MirrorSt) : MirrorSt :=
  { st with trace := st.trace ++ [a] }

def setDest (p : FsPath) (k : DKind) (st : MirrorSt) : MirrorSt :=
  { st with dest := fun q => if q = p then some k else st.dest q }

def setPanic (st : MirrorSt) : MirrorSt :=
  { st with panicked := true }

/-- `DirEntryOrExplicitMount` (main.rs 54-71): a live host directory entry
(name plus path), or an explicit source with an optional destination file
name. -/
inductive MountEntry where
  | dirEntry (name : String) (path : FsPath)
  | explicitMount (src : FsPath) (dst_file_name : Option String)
deriving DecidableEq, Repr

/-- `DirEntryOrExplicitMount::file_name` (main.rs 92-99). -/
def MountEntry.fileName : MountEntry → Option String
  | .dirEntry n _ => some n
  | .explicitMount _ d => d

/-- `DirEntryOrExplicitMount::path` (main.rs 101-108). -/
def MountEntry.path : MountEntry → FsPath
  | .dirEntry _ p => p
  | .explicitMount s _ => s

/-- `self.rootdir.join(entry.file_name().unwrap_or_default())`: joining the
empty default name leaves the directory unchanged. -/
def joinName (root : FsPath) : Option String → FsPath
  | some n => ⟨root.absolute, root.comps ++ [n]⟩
  | none => root

/-- `bind_mount` (main.rs 26-41): a bind mount with
`MS_BIND | MS_REC | MS_PRIVATE`; a mount failure is only logged, so the
action is recorded unconditionally. -/
def bind_mount (src dst : FsPath) (st : MirrorSt) : MirrorSt :=
  addAct (.bindMount src dst ⟨true, true, true⟩) st

/-- `bind_mount_directory` (main.rs 221-255), parameterised by the
recursive entry step used for children (`with_rootdir(mountpoint)` then
`bind_mount_entry`).  `create_dir` on an untracked destination succeeds
(the tolerated `AlreadyExists` cannot occur in the model). -/
def bind_mount_directory (host : Host)
    (recurse : FsPath → MountEntry → MirrorSt → MirrorSt)
    (rootdir : FsPath) (entry : MountEntry) (st : MirrorSt) : MirrorSt :=
  if (st.dest (joinName rootdir entry.fileName)).isSome = false then
    bind_mount entry.path (joinName rootdir entry.fileName)
      (setDest (joinName rootdir entry.fileName) .dir
        (addAct (.createDir (joinName rootdir entry.fileName)) st))
  else if st.dest (joinName rootdir entry.fileName) = some .dir then
    (host.children entry.path).foldl
      (fun s n =>
        recurse (joinName rootdir entry.fileName) (.dirEntry n (childPath entry.path n)) s)
      st
  else st

/-- `bind_mount_file` (main.rs 258-273). -/
def bind_mount_file (rootdir : FsPath) (entry : MountEntry) (st : MirrorSt) :
    MirrorSt :=
  if (st.dest (joinName rootdir entry.fileName)).isSome then st
  else
    bind_mount entry.path (joinName rootdir entry.fileName)
      (setDest (joinName rootdir entry.fileName) .file
        (addAct (.createFile (joinName rootdir entry.fileName)) st))

/-- `mirror_symlink` (main.rs 277-303): resolve the entry path in
stop-at-first-non-nix mode and create a symlink with that target; a
resolve failure panics. -/
def mirror_symlink (host : Host) (nixdir : FsPath) (fuel : Nat)
    (rootdir : FsPath) (entry : MountEntry) (st : MirrorSt) : MirrorSt :=
  if (st.dest (joinName rootdir entry.fileName)).isSome then st
  else
    match resolve_nix_path host.node nixdir fuel entry.path true with
    | .ok target =>
      setDest (joinName rootdir entry.fileName) .link
        (addAct (.mkSymlink target (joinName rootdir entry.fileName)) st)
    | .error _ => setPanic st

/-- `bind_mount_entry` (main.rs 305-345): the pre-step rewrites a
`/nix`-prefixed source through the resolver into an explicit mount
carrying the original destination file name, then dispatch goes on the
(no-follow) metadata, with `/dev/null` forced to the file path whenever it
is not a directory.  A stat failure or unknown node kind panics. -/
def bind_mount_entry (host : Host) (nixdir : FsPath) :
    Nat → FsPath → MountEntry → MirrorSt → MirrorSt
  | 0, _, _, st => setPanic st
  | fuel + 1, rootdir, entry, st =>
    if st.panicked then st
    else
      match
        (if (entry.path).startsWithPath nixPref then
          match resolve_nix_path host.node nixdir fuel entry.path true with
          | .ok adj => some (MountEntry.explicitMount adj entry.fileName)
          | .error _ => none
        else some entry) with
      | none => setPanic st
      | some e =>
        match host.node e.path with
        | .absent => setPanic st
        | .dir => bind_mount_directory host (bind_mount_entry host nixdir fuel) rootdir e st
        | .file => bind_mount_file rootdir e st
        | .symlink _ =>
          if e.path = devNullPath then bind_mount_file rootdir e st
          else mirror_symlink host nixdir fuel rootdir e st
        | .other =>
          if e.path = devNullPath then bind_mount_file rootdir e st
          else setPanic st

/-! ### Claim theorems about the mirror engine -/

/-- Claim C6: mirroring a directory entry: when the destination does not
exist it is created and the source is bind-mounted over it with flags
`{BIND, REC, PRIVATE}`; when the destination exists and is a directory, no
bind mount is made and the engine instead recurses, mirroring each child
of the source into the existing destination directory. -/
theorem claim_C6 (host : Host) (recurse : FsPath → MountEntry → MirrorSt → MirrorSt)
    (rootdir : FsPath) (entry : MountEntry) (st : MirrorSt) :
    (st.dest (joinName rootdir entry.fileName) = none →
      (bind_mount_directory host recurse rootdir entry st).trace =
        st.trace ++
          [.createDir (joinName rootdir entry.fileName),
           .bindMount entry.path (joinName rootdir entry.fileName) ⟨true, true, true⟩] ∧
      (bind_mount_directory host recurse rootdir entry st).dest
          (joinName rootdir entry.fileName) = some .dir ∧
      (∀ q, q ≠ joinName rootdir entry.fileName →
        (bind_mount_directory host recurse rootdir entry st).dest q = st.dest q) ∧
      (bind_mount_directory host recurse rootdir entry st).panicked = st.panicked) ∧
    (st.dest (joinName rootdir entry.fileName) = some .dir →
      bind_mount_directory host recurse rootdir entry st =
        (host.children entry.path).foldl
          (fun s n =>
            recurse (joinName rootdir entry.fileName)
              (.dirEntry n (childPath entry.path n)) s)
          st) := by
  constructor
  · intro hnone
    unfold bind_mount_directory
    rw [hnone]
    refine ⟨by simp [bind_mount, addAct, setDest], by simp [bind_mount, addAct, setDest], ?_, ?_⟩
    · intro q hq
      simp [bind_mount, addAct, setDest, hq]
    · simp [bind_mount, addAct, setDest]
  · intro hdir
    unfold bind_mount_directory
    rw [hdir]
    simp

/-- Claim C7: mirroring a file or a symlink entry is a no-op when the
destination already exists; otherwise a file entry gets a zero-byte
placeholder created and the source bind-mounted over it (flags
`{BIND, REC, PRIVATE}`), and a symlink entry gets a symlink created whose
target is the path-resolver result in stop-at-first-non-nix mode. -/
theorem claim_C7 (host : Host) (nixdir : FsPath) (fuel : Nat)
    (rootdir : FsPath) (entry : MountEntry) (st : MirrorSt) (target : FsPath) :
    ((st.dest (joinName rootdir entry.fileName)).isSome →
      bind_mount_file rootdir entry st = st) ∧
    (st.dest (joinName rootdir entry.fileName) = none →
      (bind_mount_file rootdir entry st).trace =
        st.trace ++
          [.createFile (joinName rootdir entry.fileName),
           .bindMount entry.path (joinName rootdir entry.fileName) ⟨true, true, true⟩] ∧
      (bind_mount_file rootdir entry st).dest (joinName rootdir entry.fileName) =
        some .file) ∧
    ((st.dest (joinName rootdir entry.fileName)).isSome →
      mirror_symlink host nixdir fuel rootdir entry st = st) ∧
    (st.dest (joinName rootdir entry.fileName) = none →
      resolve_nix_path host.node nixdir fuel entry.path true = .ok target →
      (mirror_symlink host nixdir fuel rootdir entry st).trace =
        st.trace ++ [.mkSymlink target (joinName rootdir entry.fileName)] ∧
      (mirror_symlink host nixdir fuel rootdir entry st).dest
          (joinName rootdir entry.fileName) = some .link) := by
  refine ⟨?_, ?_, ?_, ?_⟩
  · intro hsome
    unfold bind_mount_file
    simp [hsome]
  · intro hnone
    unfold bind_mount_file
    rw [hnone]
    exact ⟨by simp [bind_mount, addAct, setDest], by simp [bind_mount, addAct, setDest]⟩
  · intro hsome
    unfold mirror_symlink
    simp [hsome]
  · intro hnone hres
    unfold mirror_symlink
    rw [hnone, hres]
    exact ⟨by simp [addAct, setDest], by simp [addAct, setDest]⟩

/-- Concrete states for the engine witnesses: a scratch root `/sc` holding
an existing directory `etc` and an existing file `hostname` under it. -/
def scRoot : FsPath := ⟨true, ["sc"]⟩

def st0 : MirrorSt :=
  { dest := fun q =>
      if q = scRoot then some .dir
      else if q = ⟨true, ["sc", "etc"]⟩ then some .dir
      else if q = ⟨true, ["sc", "etc", "hostname"]⟩ then some .file
      else none,
    trace := [], panicked := false }

def hostC6 : Host :=
  { node := fun q =>
      if q = ⟨true, ["etc"]⟩ then .dir
      else if q = ⟨true, ["etc", "hostname"]⟩ then .file
      else if q = ⟨true, ["bin"]⟩ then .dir
      else if q = ⟨true, ["lnk"]⟩ then .symlink ⟨true, ["etc", "hostname"]⟩
      else .absent,
    children := fun q => if q = ⟨true, ["etc"]⟩ then ["hostname"] else [] }

theorem claim_C6_witness :
    (st0.dest (joinName scRoot (MountEntry.dirEntry "bin" ⟨true, ["bin"]⟩).fileName) = none ∧
      (bind_mount_directory hostC6 (fun _ _ s => s) scRoot
          (.dirEntry "bin" ⟨true, ["bin"]⟩) st0).trace =
        [.createDir ⟨true, ["sc", "bin"]⟩,
         .bindMount ⟨true, ["bin"]⟩ ⟨true, ["sc", "bin"]⟩ ⟨true, true, true⟩]) ∧
    (st0.dest (joinName scRoot (MountEntry.dirEntry "etc" ⟨true, ["etc"]⟩).fileName) =
        some .dir ∧
      bind_mount_directory hostC6 (fun _ _ s => s) scRoot
          (.dirEntry "etc" ⟨true, ["etc"]⟩) st0 = st0) := by
  constructor
  · refine ⟨by decide, ?_⟩
    have h := (claim_C6 hostC6 (fun _ _ s => s) scRoot
      (.dirEntry "bin" ⟨true, ["bin"]⟩) st0).1 (by decide)
    exact h.1
  · refine ⟨by decide, ?_⟩
    have h := (claim_C6 hostC6 (fun _ _ s => s) scRoot
      (.dirEntry "etc" ⟨true, ["etc"]⟩) st0).2 (by decide)
    rw [h]
    rfl

theorem claim_C7_witness :
    ((st0.dest (joinName ⟨true, ["sc", "etc"]⟩
        (MountEntry.dirEntry "hostname" ⟨true, ["etc", "hostname"]⟩).fileName)).isSome ∧
      bind_mount_file ⟨true, ["sc", "etc"]⟩
        (.dirEntry "hostname" ⟨true, ["etc", "hostname"]⟩) st0 = st0) ∧
    (st0.dest ⟨true, ["sc", "etc", "group"]⟩ = none ∧
      (bind_mount_file ⟨true, ["sc", "etc"]⟩
          (.dirEntry "group" ⟨true, ["etc", "group"]⟩) st0).trace =
        [.createFile ⟨true, ["sc", "etc", "group"]⟩,
         .bindMount ⟨true, ["etc", "group"]⟩ ⟨true, ["sc", "etc", "group"]⟩
           ⟨true, true, true⟩]) ∧
    (mirror_symlink hostC6 ⟨true, ["nd"]⟩ 1 ⟨true, ["sc", "etc"]⟩
        (.dirEntry "hostname" ⟨true, ["etc", "hostname"]⟩) st0 = st0) ∧
    (resolve_nix_path hostC6.node ⟨true, ["nd"]⟩ 1 ⟨true, ["lnk"]⟩ true =
        .ok ⟨true, ["etc", "hostname"]⟩ ∧
      (mirror_symlink hostC6 ⟨true, ["nd"]⟩ 1 scRoot
          (.dirEntry "lnk" ⟨true, ["lnk"]⟩) st0).trace =
        [.mkSymlink ⟨true, ["etc", "hostname"]⟩ ⟨true, ["sc", "lnk"]⟩]) := by
  refine ⟨⟨by decide, ?_⟩, ⟨by decide, ?_⟩, ?_, ⟨by rfl, ?_⟩⟩
  · exact (claim_C7 hostC6 ⟨true, ["nd"]⟩ 1 ⟨true, ["sc", "etc"]⟩
      (.dirEntry "hostname" ⟨true, ["etc", "hostname"]⟩) st0 rootPath).1 (by decide)
  · exact ((claim_C7 hostC6 ⟨true, ["nd"]⟩ 1 ⟨true, ["sc", "etc"]⟩
      (.dirEntry "group" ⟨true, ["etc", "group"]⟩) st0 rootPath).2.1 (by decide)).1
  · exact (claim_C7 hostC6 ⟨true, ["nd"]⟩ 1 ⟨true, ["sc", "etc"]⟩
      (.dirEntry "hostname" ⟨true, ["etc", "hostname"]⟩) st0 rootPath).2.2.1 (by decide)
  · exact ((claim_C7 hostC6 ⟨true, ["nd"]⟩ 1 scRoot
      (.dirEntry "lnk" ⟨true, ["lnk"]⟩) st0
      ⟨true, ["etc", "hostname"]⟩).2.2.2 (by decide) (by rfl)).1

/-! ## The policy applier and `run_chroot` (main.rs 120-133, 347-486)

Only the mount-construction part of `run_chroot` is modelled (unshare,
chroot, identity mapping and exec exchange no state with the mirroring).
`HashMap`/`HashSet` iteration order is unspecified in Rust; the model uses
lists standing for one iteration order, which fixes the order *within*
each policy group while the chaining fixes the order *between* groups. -/

structure PathConfig where
  excludes : List FsPath
  profile : List (FsPath × FsPath)
  absolute : List (FsPath × FsPath)
deriving DecidableEq, Repr

/-- `<store>/var/nix/profiles/per-user/<user>/profile` (main.rs 371-375). -/
def profile_dir_path (nixdir : FsPath) (user : String) : FsPath :=
  nixdir.join ⟨false, ["var", "nix", "profiles", "per-user", user, "profile"]⟩

/-- Leading-`/` strip applied to profile-relative sources (main.rs
387-394). -/
def stripRootPref (p : FsPath) : FsPath :=
  if p.absolute then ⟨false, p.comps⟩ else p

/-- The `explicit_mounts` iterator chain (main.rs 378-419): profile
mounts (dropped wholesale when the profile directory cannot be resolved),
then a `/dev/null` placeholder per excluded destination, then the absolute
mounts.  The per-element absoluteness panics fire later, while the chain
is consumed (see `explicit_mounts_tagged` and `process_explicit_mount`). -/
def explicit_mounts (profileDir : Except RErr FsPath) (c : PathConfig) :
    List (FsPath × FsPath) :=
  (match profileDir with
   | .ok pd => c.profile.map (fun pr => (pd.join (stripRootPref pr.1), pr.2))
   | .error _ => []) ++
  c.excludes.map (fun ex => (devNullPath, ex)) ++
  c.absolute

/-- An element of the explicit-mount chain together with the sub-chain it
came from.  Only elements of the `absolute` group pass through the
source-absoluteness `inspect` of main.rs 406-410 (profile sources are
joined onto the resolved profile directory and the exclude placeholder
source is `/dev/null`, so neither group carries that check). -/
structure ExplicitMount where
  from_absolute : Bool
  src : FsPath
  dst : FsPath
deriving DecidableEq, Repr

/-- The chain of main.rs 378-419 with each element tagged by its group,
so the per-element `inspect` panics can fire at consumption time. -/
def explicit_mounts_tagged (profileDir : Except RErr FsPath) (c : PathConfig) :
    List ExplicitMount :=
  (match profileDir with
   | .ok pd => c.profile.map (fun pr => ⟨false, pd.join (stripRootPref pr.1), pr.2⟩)
   | .error _ => []) ++
  c.excludes.map (fun ex => ⟨false, devNullPath, ex⟩) ++
  c.absolute.map (fun pr => ⟨true, pr.1, pr.2⟩)

/-- Forgetting the group tags gives back the untagged chain: the
`inspect`s are side-effect-only and do not change the elements or their
order. -/
theorem explicit_mounts_tagged_map (profileDir : Except RErr FsPath)
    (c : PathConfig) :
    (explicit_mounts_tagged profileDir c).map (fun m => (m.src, m.dst)) =
      explicit_mounts profileDir c := by
  unfold explicit_mounts_tagged explicit_mounts
  cases profileDir <;> simp [List.map_map, Function.comp_def, Prod.mk.eta]

/-- `fs::create_dir_all` inside the scratch root (main.rs 433): every
missing ancestor becomes a directory; a non-directory node on the way
makes the source `unwrap` panic. -/
def create_dir_all (p : FsPath) (st : MirrorSt) : MirrorSt :=
  if (List.range (p.comps.length + 1)).any
      (fun k =>
        match st.dest ⟨p.absolute, p.comps.take k⟩ with
        | some .dir => false
        | none => false
        | some _ => true) then
    setPanic st
  else
    { st with
      dest := fun q =>
        if q.absolute == p.absolute && q.comps.isPrefixOf p.comps &&
            (st.dest q).isNone then
          some DKind.dir
        else st.dest q,
      trace := st.trace ++ [.mkDirAll p] }

/-- One step of the explicit-mount loop (main.rs 404-445): first the
`inspect` panics the element passes through as it is pulled from the
chain — the source-absoluteness check of main.rs 406-410 for
absolute-group elements, then the destination-absoluteness check of
main.rs 415-419 for every element — and then the loop body of main.rs
421-445: on a resolvable source the destination's parent tree is created
and the entry is mirrored from that parent context; an unresolvable
source only produces a warning on stderr. -/
def process_explicit_mount (host : Host) (nixdir : FsPath) (fuel : Nat)
    (rootdir : FsPath) (st : MirrorSt) (m : ExplicitMount) : MirrorSt :=
  if st.panicked then st
  else if m.from_absolute ∧ m.src.absolute = false then setPanic st
  else if m.dst.absolute = false then setPanic st
  else
    match resolve_nix_path host.node nixdir fuel m.src true with
    | .ok src =>
      bind_mount_entry host nixdir fuel
        (rootdir.join ⟨false, m.dst.comps.dropLast⟩)
        (.explicitMount src m.dst.lastName)
        (create_dir_all (rootdir.join ⟨false, m.dst.comps.dropLast⟩) st)
    | .error _ => addAct (.warn m.src m.dst) st

/-- main.rs 369-446: resolve the profile directory (follow-all mode) and
run the explicit-mount loop over the chained policy mounts. -/
def explicit_mounts_step (host : Host) (nixdir : FsPath) (fuel : Nat)
    (rootdir : FsPath) (user : String) (cfg : Option PathConfig)
    (st : MirrorSt) : MirrorSt :=
  match cfg with
  | none => st
  | some c =>
    (explicit_mounts_tagged
        (resolve_nix_path host.node nixdir fuel (profile_dir_path nixdir user) false) c).foldl
      (process_explicit_mount host nixdir fuel rootdir) st

/-- The opengl-driver step (main.rs 355-363). -/
def ogl_step (host : Host) (nixdir rootdir : FsPath) (st : MirrorSt) : MirrorSt :=
  if st.panicked then st
  else if host.node (nixdir.join ⟨false, ["var", "nix", "opengl-driver", "lib"]⟩) = .dir then
    bind_mount (nixdir.join ⟨false, ["var", "nix", "opengl-driver", "lib"]⟩)
      (rootdir.join ⟨false, ["run", "opengl-driver", "lib"]⟩)
      (create_dir_all (rootdir.join ⟨false, ["run", "opengl-driver", "lib"]⟩) st)
  else st

/-- The default host-root mirror pass (main.rs 449-458): every entry of
`/` except the one named `nix` is mirrored into the scratch root. -/
def default_pass (host : Host) (nixdir : FsPath) (fuel : Nat)
    (rootdir : FsPath) (st : MirrorSt) : MirrorSt :=
  (host.children rootPath).foldl
    (fun s n =>
      if n = "nix" then s
      else bind_mount_entry host nixdir fuel rootdir (.dirEntry n ⟨true, [n]⟩) s)
    st

/-- The exclude-placeholder unmount pass (main.rs 460-467); a relative
excluded destination makes `strip_prefix("/").unwrap()` panic. -/
def unbind_excludes (rootdir : FsPath) (cfg : Option PathConfig)
    (st : MirrorSt) : MirrorSt :=
  match cfg with
  | none => st
  | some c =>
    c.excludes.foldl
      (fun s p =>
        if s.panicked then s
        else if p.absolute = false then setPanic s
        else addAct (.unmountAct (rootdir.join ⟨false, p.comps⟩)) s)
      st

/-- The store overlay (main.rs 469-486): `<scratch>/nix` is created
(`fs::create_dir`, any failure panics) and the store is bind-mounted over
it with `MS_BIND | MS_REC` only. -/
def store_mount (nixdir rootdir : FsPath) (st : MirrorSt) : MirrorSt :=
  if st.panicked then st
  else if (st.dest (rootdir.join ⟨false, ["nix"]⟩)).isSome then setPanic st
  else
    addAct (.bindMount nixdir (rootdir.join ⟨false, ["nix"]⟩) ⟨true, true, false⟩)
      (setDest (rootdir.join ⟨false, ["nix"]⟩) .dir
        (addAct (.createDir (rootdir.join ⟨false, ["nix"]⟩)) st))

/-- The scratch root as the mirroring starts: freshly created and empty. -/
def initSt (rootdir : FsPath) : MirrorSt :=
  { dest := fun q => if q = rootdir then some .dir else none,
    trace := [], panicked := false }

/-- The mount-constructing portion of `run_chroot` (main.rs 347-486), in
source order: opengl-driver step, explicit policy mounts, default
host-root mirror pass, exclude unmounts, store overlay. -/
def run_chroot_mounts (host : Host) (nixdir rootdir : FsPath) (fuel : Nat)
    (user : String) (cfg : Option PathConfig) : MirrorSt :=
  store_mount nixdir rootdir
    (unbind_excludes rootdir cfg
      (default_pass host nixdir fuel rootdir
        (explicit_mounts_step host nixdir fuel rootdir user cfg
          (ogl_step host nixdir rootdir (initSt rootdir)))))

/-! ### Claim theorems about the policy applier and run_chroot -/

/-- A policy with one entry in each group, for evaluating the chain
order. -/
def cfgC1 : PathConfig :=
  { excludes := [⟨true, ["etc", "hostname"]⟩],
    profile := [(⟨false, ["bin"]⟩, ⟨true, ["profbin"]⟩)],
    absolute := [(⟨true, ["srcA"]⟩, ⟨true, ["dstA"]⟩)] }

/-- Claim C1 evaluated on the code: with one mount in each policy group,
the explicit-mount chain processes the profile-relative mount first, then
the `/dev/null` exclude placeholder, then the absolute mount — the exclude
placeholder is NOT processed before the profile-relative mounts (the
source marks this with a TODO saying the excludes "should actually
probably happen first"). -/
theorem claim_C1_eval :
    explicit_mounts (.ok ⟨true, ["pd"]⟩) cfgC1 =
      [(⟨true, ["pd", "bin"]⟩, ⟨true, ["profbin"]⟩),
       (devNullPath, ⟨true, ["etc", "hostname"]⟩),
       (⟨true, ["srcA"]⟩, ⟨true, ["dstA"]⟩)] ∧
    (explicit_mounts (.ok ⟨true, ["pd"]⟩) cfgC1).head? =
      some (⟨true, ["pd", "bin"]⟩, ⟨true, ["profbin"]⟩) := by
  decide

/-- Erase one name from a fold, as the default pass does for `nix`. -/
theorem foldl_skip_filter {α β : Type} [DecidableEq β] (f : α → β → α) (bad : β)
    (l : List β) (init : α) :
    l.foldl (fun s n => if n = bad then s else f s n) init =
      (l.filter (fun n => n ≠ bad)).foldl f init := by
  induction l generalizing init with
  | nil => rfl
  | cons x xs ih =>
    by_cases hx : x = bad
    · subst hx
      simp only [List.foldl_cons, if_pos rfl, List.filter_cons]
      simp [ih]
    · simp only [List.foldl_cons, if_neg hx, List.filter_cons]
      simp [hx, ih]

/-- Claim C8: the default mirror pass mirrors exactly the entries of the
host root whose name is not `nix`, and the subsequent store overlay
creates `<scratch>/nix` and bind-mounts the store directory over it with
exactly `{BIND, REC}` (no `PRIVATE`). -/
theorem claim_C8 (host : Host) (nixdir : FsPath) (fuel : Nat) (rootdir : FsPath)
    (st : MirrorSt) :
    (default_pass host nixdir fuel rootdir st =
      ((host.children rootPath).filter (fun n => n ≠ "nix")).foldl
        (fun s n => bind_mount_entry host nixdir fuel rootdir (.dirEntry n ⟨true, [n]⟩) s)
        st) ∧
    (st.panicked = false →
      st.dest (rootdir.join ⟨false, ["nix"]⟩) = none →
      (store_mount nixdir rootdir st).trace =
        st.trace ++
          [.createDir (rootdir.join ⟨false, ["nix"]⟩),
           .bindMount nixdir (rootdir.join ⟨false, ["nix"]⟩) ⟨true, true, false⟩] ∧
      (store_mount nixdir rootdir st).dest (rootdir.join ⟨false, ["nix"]⟩) =
        some .dir) := by
  constructor
  · exact foldl_skip_filter
      (fun s n => bind_mount_entry host nixdir fuel rootdir (.dirEntry n ⟨true, [n]⟩) s)
      "nix" (host.children rootPath) st
  · intro hp hnone
    unfold store_mount
    rw [hp, hnone]
    exact ⟨by simp [addAct, setDest], by simp [addAct, setDest]⟩

/-- Host for the C8 witness: `/` lists `bin`, `nix`, `etc`. -/
def hostC8 : Host :=
  { node := fun q =>
      if q = ⟨true, ["bin"]⟩ then .dir
      else if q = ⟨true, ["nix"]⟩ then .dir
      else if q = ⟨true, ["etc"]⟩ then .dir
      else .absent,
    children := fun q => if q = rootPath then ["bin", "nix", "etc"] else [] }

theorem claim_C8_witness :
    (default_pass hostC8 ⟨true, ["nd"]⟩ 2 scRoot st0 =
      (["bin", "etc"] : List String).foldl
        (fun s n => bind_mount_entry hostC8 ⟨true, ["nd"]⟩ 2 scRoot (.dirEntry n ⟨true, [n]⟩) s)
        st0) ∧
    (st0.panicked = false ∧
      st0.dest (scRoot.join ⟨false, ["nix"]⟩) = none ∧
      (store_mount ⟨true, ["nd"]⟩ scRoot st0).trace =
        [.createDir ⟨true, ["sc", "nix"]⟩,
         .bindMount ⟨true, ["nd"]⟩ ⟨true, ["sc", "nix"]⟩ ⟨true, true, false⟩]) := by
  constructor
  · have h := (claim_C8 hostC8 ⟨true, ["nd"]⟩ 2 scRoot st0).1
    rw [h]
    rfl
  · refine ⟨by decide, by decide, ?_⟩
    exact ((claim_C8 hostC8 ⟨true, ["nd"]⟩ 2 scRoot st0).2 (by decide) (by decide)).1

/-- Claim C10 counterexample: an absolute-group mount with a relative,
unresolvable source is NOT skipped with a warning — the
source-absoluteness `inspect` of main.rs 406-410 panics as the element is
pulled from the chain, before the resolver runs: the step panics and no
warning is recorded, so the unresolvable source is fatal here. -/
theorem claim_C10_cex :
    resolve_nix_path hostC8.node ⟨true, ["nd"]⟩ 1 ⟨false, ["x"]⟩ true =
      .error .notFound ∧
    (process_explicit_mount hostC8 ⟨true, ["nd"]⟩ 1 scRoot st0
        ⟨true, ⟨false, ["x"]⟩, ⟨true, ["dst"]⟩⟩).panicked = true ∧
    (process_explicit_mount hostC8 ⟨true, ["nd"]⟩ 1 scRoot st0
        ⟨true, ⟨false, ["x"]⟩, ⟨true, ["dst"]⟩⟩).trace = [] := by
  refine ⟨by rfl, by decide, by decide⟩

/-- Claim C10 (amended): an explicit policy mount whose source the
resolver cannot resolve is skipped with a warning — the loop step only
appends the warning to the trace, changes no destination state, does not
panic, and the fold continues over the remaining mounts — provided the
mount is not an absolute-group mount with a non-absolute source (such a
mount aborts with a panic as it is pulled from the chain, before the
resolver runs).  Profile-relative and exclude-placeholder mounts carry no
source-absoluteness check. -/
theorem claim_C10 (host : Host) (nixdir : FsPath) (fuel : Nat) (rootdir : FsPath)
    (st : MirrorSt) (m : ExplicitMount) (rest : List ExplicitMount) (e : RErr)
    (hp : st.panicked = false)
    (hsrc : m.from_absolute = true → m.src.absolute = true)
    (hdest : m.dst.absolute = true)
    (hres : resolve_nix_path host.node nixdir fuel m.src true = .error e) :
    (m :: rest).foldl (process_explicit_mount host nixdir fuel rootdir) st =
      rest.foldl (process_explicit_mount host nixdir fuel rootdir)
        (addAct (.warn m.src m.dst) st) ∧
    (addAct (.warn m.src m.dst) st).trace = st.trace ++ [.warn m.src m.dst] ∧
    (addAct (.warn m.src m.dst) st).dest = st.dest ∧
    (addAct (.warn m.src m.dst) st).panicked = false := by
  refine ⟨?_, rfl, rfl, hp⟩
  rw [List.foldl_cons]
  congr 1
  have hsrc' : ¬(m.from_absolute = true ∧ m.src.absolute = false) := by
    intro hcon
    have h2 := hcon.2
    rw [hsrc hcon.1] at h2
    exact absurd h2 (by decide)
  unfold process_explicit_mount
  rw [hp, hdest, hres]
  simp [hsrc']

theorem claim_C10_witness :
    resolve_nix_path hostC8.node ⟨true, ["nd"]⟩ 1 ⟨true, ["missing"]⟩ true =
      .error .notFound ∧
    [(⟨true, ⟨true, ["missing"]⟩, ⟨true, ["etc", "group"]⟩⟩ : ExplicitMount),
     ⟨false, ⟨true, ["bin"]⟩, ⟨true, ["bin2"]⟩⟩].foldl
        (process_explicit_mount hostC8 ⟨true, ["nd"]⟩ 1 scRoot) st0 =
      [(⟨false, ⟨true, ["bin"]⟩, ⟨true, ["bin2"]⟩⟩ : ExplicitMount)].foldl
        (process_explicit_mount hostC8 ⟨true, ["nd"]⟩ 1 scRoot)
        (addAct (.warn ⟨true, ["missing"]⟩ ⟨true, ["etc", "group"]⟩) st0) := by
  refine ⟨by rfl, ?_⟩
  exact (claim_C10 hostC8 ⟨true, ["nd"]⟩ 1 scRoot st0
    ⟨true, ⟨true, ["missing"]⟩, ⟨true, ["etc", "group"]⟩⟩
    [⟨false, ⟨true, ["bin"]⟩, ⟨true, ["bin2"]⟩⟩] .notFound
    (by decide) (by decide) (by decide) (by rfl)).1

/-! ## The parent waiter (`wait_for_child`, main.rs 528-560, and the
parent side of `main`, main.rs 562-599)

The waiter is driven by the results of `waitpid(child, WUNTRACED)`, an
input stream here.  The nix `WaitStatus` constructors are modelled
directly: `Exited` and `Signaled` report termination; a child *stopped* by
a signal (the case `WUNTRACED` exists to report) arrives as `Stopped`.
The parent's observable behaviour is the list of actions it performs plus
its exit status. -/

inductive Signal where
  | sigstop
  | sigcont
  | sigkill
  | sigterm
  | sigint
  | sigOther (n : Nat)
deriving DecidableEq, Repr

inductive WaitStatus where
  | exited (pid : Nat) (status : Int)
  | signaled (pid : Nat) (signal : Signal) (core_dumped : Bool)
  | stopped (pid : Nat) (signal : Signal)
  | continued (pid : Nat)
  | stillAlive
deriving DecidableEq, Repr

inductive WaitEvent where
  | ok (ws : WaitStatus)
  | err (errno : Nat)
deriving DecidableEq, Repr

inductive PAction where
  | killSelf (s : Signal)
  | killChild (pid : Nat) (s : Signal)
  | printUnexpected
  | printWaitErr
  | printForkFailed
  | removeScratch (p : FsPath)
  | exitWith (status : Int)
deriving DecidableEq, Repr

inductive LoopOutcome where
  | finished (acts : List PAction) (exit_status : Int)
  | blocked (acts : List PAction)
deriving DecidableEq, Repr

def prependActs (pre : List PAction) : LoopOutcome → LoopOutcome
  | .finished acts s => .finished (pre ++ acts) s
  | .blocked acts => .blocked (pre ++ acts)

/-- The `waitpid` loop of `wait_for_child` (main.rs 529-554).
`exit_status` starts at 1 and is only assigned on `Exited`, which breaks
immediately, so a break out of any other arm carries status 1.
`Signaled(child, SIGSTOP, _)` matches only a child *terminated* by
SIGSTOP (which POSIX makes impossible — a stop arrives as `stopped` and
falls into the catch-all); the arm is kept exactly as the source has
it. -/
def wait_loop : List WaitEvent → LoopOutcome
  | [] => .blocked []
  | e :: events =>
    match e with
    | .ok (.exited _ status) => .finished [] status
    | .ok (.signaled child .sigstop _) =>
      prependActs [.killSelf .sigstop, .killChild child .sigcont] (wait_loop events)
    | .ok (.signaled _ s _) => prependActs [.killSelf s] (wait_loop events)
    | .ok _ => .finished [.printUnexpected] 1
    | .err _ => .finished [.printWaitErr] 1

/-- `wait_for_child` (main.rs 528-560): run the loop; once it breaks,
remove the scratch root recursively and exit with the recorded status.
`none` models a parent still blocked in `waitpid` after the given
events. -/
def wait_for_child (rootdir : FsPath) (events : List WaitEvent) :
    Option (List PAction × Int) :=
  match wait_loop events with
  | .finished acts status =>
    some (acts ++ [.removeScratch rootdir, .exitWith status], status)
  | .blocked _ => none

inductive ForkOutcome where
  | parentOf (child : Nat)
  | forkFailed
deriving DecidableEq, Repr

/-- The parent side of `main` (main.rs 590-599): on a successful fork the
parent runs `wait_for_child`; on a fork failure it prints the error and
falls off the end of `main`, exiting 0 without touching the scratch
root. -/
def main_parent (rootdir : FsPath) (f : ForkOutcome) (events : List WaitEvent) :
    Option (List PAction × Int) :=
  match f with
  | .parentOf _ => wait_for_child rootdir events
  | .forkFailed => some ([.printForkFailed], 0)

/-! ### Claim theorems about the waiter -/

/-- Claim C2 evaluated on the code: a child stopped by SIGSTOP is reported
by `waitpid(…, WUNTRACED)` as `Stopped(child, SIGSTOP)`; the waiter's
match sends it to the catch-all arm, which prints "unexpected wait event"
and breaks with status 1 — the parent neither stops itself nor sends
SIGCONT to the child (the arm meant for job control matches
`Signaled(child, SIGSTOP, _)`, a termination report no stop produces). -/
theorem claim_C2_eval :
    wait_for_child ⟨true, ["sc"]⟩ [.ok (.stopped 42 .sigstop)] =
      some ([.printUnexpected, .removeScratch ⟨true, ["sc"]⟩, .exitWith 1], 1) ∧
    (PAction.killSelf .sigstop ∉
      [PAction.printUnexpected, .removeScratch ⟨true, ["sc"]⟩, .exitWith 1]) ∧
    (PAction.killChild 42 .sigcont ∉
      [PAction.printUnexpected, .removeScratch ⟨true, ["sc"]⟩, .exitWith 1]) := by
  decide

/-- The wait statuses handled by no dedicated arm of the waiter. -/
def unexpectedStatus : WaitStatus → Bool
  | .exited _ _ => false
  | .signaled _ _ _ => false
  | _ => true

/-- Claim C3: if the child exits with status N the parent exits with
status N; if the child is terminated by a signal other than SIGSTOP the
parent re-raises that signal against itself (and keeps waiting); any
other wait event or a waitpid error breaks the loop and the parent exits
with status 1. -/
theorem claim_C3 (rootdir : FsPath) (events : List WaitEvent) (pid : Nat)
    (n : Int) (s : Signal) (c : Bool) (ws : WaitStatus) (errno : Nat) :
    (wait_for_child rootdir (.ok (.exited pid n) :: events) =
      some ([.removeScratch rootdir, .exitWith n], n)) ∧
    (s ≠ .sigstop →
      wait_loop (.ok (.signaled pid s c) :: events) =
        prependActs [.killSelf s] (wait_loop events)) ∧
    (unexpectedStatus ws = true →
      wait_for_child rootdir (.ok ws :: events) =
        some ([.printUnexpected, .removeScratch rootdir, .exitWith 1], 1)) ∧
    (wait_for_child rootdir (.err errno :: events) =
      some ([.printWaitErr, .removeScratch rootdir, .exitWith 1], 1)) := by
  refine ⟨rfl, ?_, ?_, rfl⟩
  · intro hs
    cases s with
    | sigstop => exact absurd rfl hs
    | sigcont => rfl
    | sigkill => rfl
    | sigterm => rfl
    | sigint => rfl
    | sigOther n => rfl
  · intro hws
    cases ws with
    | exited p st => simp [unexpectedStatus] at hws
    | signaled p sg cd => simp [unexpectedStatus] at hws
    | stopped p sg => rfl
    | continued p => rfl
    | stillAlive => rfl

theorem claim_C3_witness :
    ((.sigterm : Signal) ≠ .sigstop ∧
      wait_loop [.ok (.signaled 7 .sigterm false), .ok (.exited 7 0)] =
        prependActs [.killSelf .sigterm] (wait_loop [.ok (.exited 7 0)])) ∧
    (unexpectedStatus (.stopped 7 .sigstop) = true ∧
      wait_for_child ⟨true, ["sc"]⟩ [.ok (.stopped 7 .sigstop)] =
        some ([.printUnexpected, .removeScratch ⟨true, ["sc"]⟩, .exitWith 1], 1)) := by
  constructor
  · exact ⟨by decide,
      (claim_C3 ⟨true, ["sc"]⟩ [.ok (.exited 7 0)] 7 0 .sigterm false
        (.stopped 7 .sigstop) 0).2.1 (by decide)⟩
  · exact ⟨by decide,
      (claim_C3 ⟨true, ["sc"]⟩ [] 7 0 .sigterm false
        (.stopped 7 .sigstop) 0).2.2.1 (by decide)⟩

/-- Claim C9 counterexample: when `fork` fails, the parent prints the
failure and falls off the end of `main`: it exits with status 0 — not the
recorded child status — and the scratch root (already created at this
point, main.rs 575) is never removed. -/
theorem claim_C9_cex :
    main_parent ⟨true, ["sc"]⟩ .forkFailed [] = some ([.printForkFailed], 0) ∧
    PAction.removeScratch ⟨true, ["sc"]⟩ ∉ ([.printForkFailed] : List PAction) := by
  decide

/-- Claim C9 (amended): on every exit of the parent *waiter* — every run
of `wait_for_child` whose event stream reaches a breaking event — the
scratch root is removed recursively and the parent then exits with the
recorded status (1 on anomalous paths); the removal immediately precedes
the exit.  (The claim as stated fails on the fork-failure path of `main`,
which exits 0 without removing the scratch root.) -/
theorem claim_C9_scratch_cleanup (rootdir : FsPath) (events : List WaitEvent)
    (acts : List PAction) (status : Int)
    (h : wait_for_child rootdir events = some (acts, status)) :
    ∃ pre, acts = pre ++ [.removeScratch rootdir, .exitWith status] := by
  unfold wait_for_child at h
  cases hl : wait_loop events with
  | finished a s =>
    rw [hl] at h
    simp only [Option.some.injEq, Prod.mk.injEq] at h
    exact ⟨a, by rw [← h.1, ← h.2]⟩
  | blocked a =>
    rw [hl] at h
    exact absurd h (by simp)

theorem claim_C9_witness :
    wait_for_child ⟨true, ["sc"]⟩ [.ok (.exited 9 3)] =
      some ([.removeScratch ⟨true, ["sc"]⟩, .exitWith 3], 3) ∧
    ∃ pre, [PAction.removeScratch ⟨true, ["sc"]⟩, .exitWith 3] =
      pre ++ [.removeScratch ⟨true, ["sc"]⟩, .exitWith 3] := by
  exact ⟨by decide,
    claim_C9_scratch_cleanup ⟨true, ["sc"]⟩ [.ok (.exited 9 3)]
      [.removeScratch ⟨true, ["sc"]⟩, .exitWith 3] 3 (by decide)⟩

end NixUserChroot
